import Mathlib

/-!
Verification of the piper command-pipeline library: a shallow embedding of
its error aggregation, single-command harness, and two-command pipe
orchestrator, with theorems checking the specified behaviour.

Go strings are modeled as `List Char`; a Go `error` value is an
`Option Str` (`none` = nil error, `some msg` = an error whose message is
`msg`).  Nondeterministic channel arrival orders are modeled as explicit
lists of signals in arrival order.
-/

namespace Piper

/-- Go strings, modeled as sequences of characters. -/
abbrev Str := List Char

/-- The fixed separator `"; "` used by the pipe code at both joinerrs call
sites. -/
def sepGo : Str := [';', ' ']

/-- Embedding of `joinerrs(sep string, errs ...error) error`: builds
`errstr` by appending `sep + e` for each non-nil `e` in order, then returns
nil if `errstr` is empty and otherwise an error whose message is `errstr`
with the leading separator sliced off (`errstr[len(sep):]`). -/
def joinerrs (sep : Str) (errs : List (Option Str)) : Option Str :=
  let errstr := errs.foldl (fun acc e =>
    match e with
    | none => acc
    | some m => acc ++ sep ++ m) []
  if 0 < errstr.length then some (errstr.drop sep.length) else none

/-- `glue sep msgs` is `sep + m1 + sep + m2 + ...`, the value of `errstr`
in `joinerrs` when the non-nil messages are `msgs`. -/
def glue (sep : Str) : List Str → Str
  | [] => []
  | m :: ms => sep ++ m ++ glue sep ms

theorem joinerrs_foldl (sep : Str) (errs : List (Option Str)) (acc : Str) :
    errs.foldl (fun acc e =>
      match e with
      | none => acc
      | some m => acc ++ sep ++ m) acc = acc ++ glue sep (errs.filterMap id) := by
  induction errs generalizing acc with
  | nil => simp [glue]
  | cons e rest ih =>
    cases e with
    | none => simpa [List.filterMap_cons] using ih acc
    | some m =>
      simp only [List.foldl_cons, List.filterMap_cons, id, glue]
      rw [ih (acc ++ sep ++ m)]
      simp [List.append_assoc]

theorem intercalate_eq_glue (sep m : Str) (ms : List Str) :
    List.intercalate sep (m :: ms) = m ++ glue sep ms := by
  induction ms generalizing m with
  | nil => simp [List.intercalate, List.intersperse, glue]
  | cons m2 rest ih =>
    simp only [List.intercalate, List.intersperse_cons_cons, List.flatten, glue]
    simp only [List.intercalate] at ih
    rw [ih m2]
    simp [List.append_assoc]

theorem glue_cons_length_pos (sep m : Str) (ms : List Str) (hsep : sep ≠ []) :
    0 < (glue sep (m :: ms)).length := by
  have : 0 < sep.length := List.length_pos.mpr hsep
  simp only [glue, List.append_assoc, List.length_append]
  omega

theorem joinerrs_eq_glue (sep : Str) (errs : List (Option Str)) :
    joinerrs sep errs =
      if 0 < (glue sep (errs.filterMap id)).length
      then some ((glue sep (errs.filterMap id)).drop sep.length)
      else none := by
  unfold joinerrs
  rw [joinerrs_foldl sep errs []]
  rfl

/-- C3: `joinerrs` returns nil iff every input error is nil; otherwise it
returns a single error whose message is the concatenation of the non-nil
inputs' messages joined by the separator, in their original order, losing
none of them.  Holds for every non-empty separator (the program always
passes the fixed separator `sepGo`, i.e. `"; "`). -/
theorem joinerrs_spec (sep : Str) (errs : List (Option Str)) (hsep : sep ≠ []) :
    ((joinerrs sep errs = none) ↔ ∀ e ∈ errs, e = none) ∧
    ((∃ e ∈ errs, e ≠ none) →
      joinerrs sep errs = some (List.intercalate sep (errs.filterMap id))) := by
  rw [joinerrs_eq_glue]
  rcases hm : errs.filterMap id with - | ⟨m, ms⟩
  · have hall : ∀ e ∈ errs, e = none := by
      intro e he
      have := List.filterMap_eq_nil_iff.mp hm e he
      simpa using this
    constructor
    · simp only [glue, List.length_nil, Nat.lt_irrefl, if_neg]
      exact ⟨fun _ => hall, fun _ => by simp⟩
    · rintro ⟨e, he, hne⟩
      exact absurd (hall e he) hne
  · have hpos := glue_cons_length_pos sep m ms hsep
    rw [if_pos hpos]
    constructor
    · constructor
      · intro h
        exact absurd h (by simp)
      · intro hall
        have : errs.filterMap id = [] := List.filterMap_eq_nil_iff.mpr (by
          intro e he
          simp [hall e he])
        rw [this] at hm
        exact absurd hm (by simp)
    · intro _
      rw [intercalate_eq_glue]
      simp only [glue]
      rw [show sep ++ m ++ glue sep ms = sep ++ (m ++ glue sep ms) by
        simp [List.append_assoc]]
      rw [List.drop_left]

theorem joinerrs_spec_witness :
    joinerrs sepGo [some ['a'], none, some ['b']] =
      some (List.intercalate sepGo
        (([some ['a'], none, some ['b']] : List (Option Str)).filterMap id)) :=
  (joinerrs_spec sepGo [some ['a'], none, some ['b']] (by decide)).2 (by decide)

/-! ## The local launcher (src/local/local.go) -/

/-- A Go value passed through a variadic `...interface{}` parameter: either
a string-like value or a slice of values (which is what `args` becomes when
passed as one argument instead of being spread with `args...`). -/
inductive GoVal where
  | str (s : Str)
  | list (args : List GoVal)

mutual

/-- How Go's fmt package renders a value with the s and v verbs: strings
verbatim, a slice as its elements space-separated inside brackets. -/
def govalToStr : GoVal → Str
  | .str s => s
  | .list args => '[' :: govalListToStr args ++ [']']

def govalListToStr : List GoVal → Str
  | [] => []
  | [v] => govalToStr v
  | v :: rest => govalToStr v ++ ' ' :: govalListToStr rest

end

/-- Embedding of Go format-string expansion for the s and v verbs as used
by the launchers: each verb consumes one argument; a verb with no argument
left renders as a MISSING note, as fmt does. -/
def gofmt : Str → List GoVal → Str
  | '%' :: 's' :: rest, a :: as => govalToStr a ++ gofmt rest as
  | '%' :: 'v' :: rest, a :: as => govalToStr a ++ gofmt rest as
  | '%' :: 's' :: rest, [] =>
      ['%', '!', 's', '(', 'M', 'I', 'S', 'S', 'I', 'N', 'G', ')'] ++ gofmt rest []
  | '%' :: 'v' :: rest, [] =>
      ['%', '!', 'v', '(', 'M', 'I', 'S', 'S', 'I', 'N', 'G', ')'] ++ gofmt rest []
  | c :: rest, args => c :: gofmt rest args
  | [], _ => []

/-- The local launcher's identity string: `func (l Launcher) String(): "local"`. -/
def localIdentity : Str := ['l', 'o', 'c', 'a', 'l']

/-- Embedding of `local.Launcher.Errorf`: the body is
`return fmt.Errorf(pat, args)` — the variadic `args` slice is passed as a
single argument (not spread with `args...`), and no launcher-identity
prefix is prepended. -/
def localErrorf (pat : Str) (args : List GoVal) : Str :=
  gofmt pat [GoVal.list args]

/-- Embedding of the ssh launcher's `Launcher.Errorf`: prefix
`l.String() + ": "`, then `fmt.Errorf("%s: %v", pfx, fmt.Errorf(pat, args...))`
— here the args ARE spread. -/
def sshLauncherErrorf (identity pat : Str) (args : List GoVal) : Str :=
  (identity ++ [':', ' ']) ++ [':', ' '] ++ gofmt pat args

/-- C9 (counterexample evaluation): at pattern `"a %s"` with argument list
`["b"]`, `local.Launcher.Errorf` produces the message `"a [b]"` — the args
slice was formatted as one bracketed value — whereas formatting the pattern
with the arguments gives `"a b"`, and the launcher identity `"local"` is
not a prefix of the produced message.  The ssh variant does satisfy the
claim shape at the same input. -/
theorem localErrorf_violates_claim :
    localErrorf ['a', ' ', '%', 's'] [GoVal.str ['b']] = ['a', ' ', '[', 'b', ']'] ∧
    gofmt ['a', ' ', '%', 's'] [GoVal.str ['b']] = ['a', ' ', 'b'] ∧
    localIdentity.isPrefixOf
      (localErrorf ['a', ' ', '%', 's'] [GoVal.str ['b']]) = false ∧
    sshLauncherErrorf ['m', 'e'] ['a', ' ', '%', 's'] [GoVal.str ['b']] =
      ['m', 'e'] ++ [':', ' ', ':', ' '] ++ ['a', ' ', 'b'] := by
  refine ⟨?_, ?_, ?_, ?_⟩ <;> decide

/-- Embedding of the executor produced by `local.Launcher.Launch`: it wraps
`exec.CommandContext(ctx, "sh", "-c", cmd)` plus the cancel handle and the
command text. -/
structure LocalExe where
  shellArgs : List Str
  command : Str

/-- Embedding of `local.Launcher.Launch`: builds the executor and returns
it with a nil error, unconditionally. -/
def localLaunch (cmd : Str) : LocalExe × Option Str :=
  ({ shellArgs := [['s', 'h'], ['-', 'c'], cmd], command := cmd }, none)

/-- C10: for every command string, the local launcher's Launch returns an
executor handle (carrying that command) together with a nil error —
launching locally never fails at Launch time. -/
theorem localLaunch_never_fails (cmd : Str) :
    (localLaunch cmd).2 = none ∧ (localLaunch cmd).1.command = cmd :=
  ⟨rfl, rfl⟩

/-! ## The single-command harness (`harness.run` in the core package) -/

/-- Observable actions of `harness.run` on its executor, in program order:
opening the three endpoints, closing an already-opened endpoint during
open-failure cleanup, Start, and Wait. -/
inductive HEvent where
  | openOut | openErrOut | openIn | closeOut | closeErrOut | start | wait
deriving DecidableEq

/-- Errors `harness.run` can return, one constructor per production site;
the first five correspond to `h.exe.Errorf(...)`-wrapped errors (command /
launcher context added by the executor), `taskErr` is a drain or feed task
error returned unwrapped. -/
inductive HErr where
  | openOut (e : Str) | openErrOut (e : Str) | openIn (e : Str)
  | startFail (e : Str) | waitFail (e : Str) | taskErr (e : Str)
deriving DecidableEq

/-- Environment of one `harness.run` call: the outcome each external
operation would have, with drain/feed task completion signals listed in
channel-arrival order. -/
structure HEnv where
  stdoutOpen : Option Str
  stderrOpen : Option Str
  stdinOpen : Option Str
  startRes : Option Str
  taskResults : List (Option Str)
  waitRes : Option Str
deriving DecidableEq

/-- Number of drain/feed tasks the harness launches: one per requested
endpoint (the running length of the `errs` slice in the source). -/
def numTasks (uo ue ui : Bool) : Nat :=
  cond uo 1 0 + cond ue 1 0 + cond ui 1 0

/-- Tail of `harness.run` after all endpoints opened: Start (failure
reported via Errorf), then collect exactly `nTasks` completion signals,
then Wait; a non-nil Wait error is wrapped and returned, otherwise the
first non-nil collected task error is returned as-is. -/
def harnessFinish (nTasks : Nat) (env : HEnv) (tr : List HEvent) :
    Option HErr × List HEvent :=
  match env.startRes with
  | some e => (some (.startFail e), tr ++ [.start])
  | none =>
    let collected := env.taskResults.take nTasks
    match env.waitRes with
    | some e => (some (.waitFail e), tr ++ [.start, .wait])
    | none => ((collected.filterMap id).head?.map .taskErr, tr ++ [.start, .wait])

/-- Stdin-opening step of `harness.run`: on failure, close stdout then
stderr if they were opened, and return without starting. -/
def harnessOpenIn (outOpened errOpened ui : Bool) (env : HEnv) (tr : List HEvent) :
    Option HErr × List HEvent :=
  if ui then
    match env.stdinOpen with
    | some e => (some (.openIn e), tr ++ [.openIn]
        ++ (cond outOpened [.closeOut] [])
        ++ (cond errOpened [.closeErrOut] []))
    | none => harnessFinish (cond outOpened 1 0 + cond errOpened 1 0 + 1) env
        (tr ++ [.openIn])
  else harnessFinish (cond outOpened 1 0 + cond errOpened 1 0) env tr

/-- Stderr-opening step of `harness.run`: on failure, close stdout if it
was opened, and return without starting. -/
def harnessOpenErr (outOpened ue ui : Bool) (env : HEnv) (tr : List HEvent) :
    Option HErr × List HEvent :=
  if ue then
    match env.stderrOpen with
    | some e => (some (.openErrOut e), tr ++ [.openErrOut]
        ++ (cond outOpened [.closeOut] []))
    | none => harnessOpenIn outOpened true ui env (tr ++ [.openErrOut])
  else harnessOpenIn outOpened false ui env tr

/-- Embedding of `harness.run`: `uo`, `ue`, `ui` say whether the caller
requested stdout capture, stderr capture, and stdin feeding
(`h.stdout != nil` etc. in the source).  Returns the error outcome and the
event trace. -/
def harnessRun (uo ue ui : Bool) (env : HEnv) : Option HErr × List HEvent :=
  if uo then
    match env.stdoutOpen with
    | some e => (some (.openOut e), [.openOut])
    | none => harnessOpenErr true ue ui env [.openOut]
  else harnessOpenErr false ue ui env []

/-- C4: when every requested endpoint opened and Start succeeded, a
non-nil Wait error is always the error reported (wrapped, `waitFail`),
taking precedence over any drain/feed task error; when Wait returns nil
the harness reports the first non-nil error among the collected completion
signals (unwrapped, `taskErr`), or nil if there is none. -/
theorem harness_wait_precedence (uo ue ui : Bool) (env : HEnv)
    (ho : uo = true → env.stdoutOpen = none)
    (he : ue = true → env.stderrOpen = none)
    (hi : ui = true → env.stdinOpen = none)
    (hs : env.startRes = none) :
    (∀ e, env.waitRes = some e →
      (harnessRun uo ue ui env).1 = some (.waitFail e)) ∧
    (env.waitRes = none →
      (harnessRun uo ue ui env).1 =
        ((env.taskResults.take (numTasks uo ue ui)).filterMap id).head?.map
          .taskErr) := by
  cases uo <;> cases ue <;> cases ui <;>
    simp_all [harnessRun, harnessOpenErr, harnessOpenIn, harnessFinish, numTasks]

theorem harness_wait_precedence_witness :
    (harnessRun true true true
      { stdoutOpen := none, stderrOpen := none, stdinOpen := none,
        startRes := none, taskResults := [none, some ['t'], none],
        waitRes := some ['w'] }).1 = some (.waitFail ['w']) :=
  (harness_wait_precedence true true true _
    (fun _ => rfl) (fun _ => rfl) (fun _ => rfl) rfl).1 ['w'] rfl

/-- C5: endpoints are opened in the order stdout, stderr, stdin, only
those requested; at the first open failure the harness closes every
endpoint already opened (stdout then stderr), returns the corresponding
error immediately, and the trace contains no `start` event. -/
theorem harness_open_fail_cleanup (uo ue ui : Bool) (env : HEnv) :
    (∀ e, uo = true → env.stdoutOpen = some e →
      harnessRun uo ue ui env = (some (.openOut e), [.openOut])) ∧
    (∀ e, (uo = true → env.stdoutOpen = none) → ue = true →
      env.stderrOpen = some e →
      harnessRun uo ue ui env =
        (some (.openErrOut e),
          cond uo [HEvent.openOut] [] ++ [.openErrOut]
            ++ cond uo [HEvent.closeOut] [])) ∧
    (∀ e, (uo = true → env.stdoutOpen = none) →
      (ue = true → env.stderrOpen = none) → ui = true →
      env.stdinOpen = some e →
      harnessRun uo ue ui env =
        (some (.openIn e),
          cond uo [HEvent.openOut] [] ++ cond ue [HEvent.openErrOut] []
            ++ [.openIn] ++ cond uo [HEvent.closeOut] []
            ++ cond ue [HEvent.closeErrOut] [])) := by
  cases uo <;> cases ue <;> cases ui <;>
    simp_all [harnessRun, harnessOpenErr, harnessOpenIn, harnessFinish]

theorem harness_open_fail_cleanup_witness :
    harnessRun true true true
      { stdoutOpen := none, stderrOpen := none, stdinOpen := some ['x'],
        startRes := none, taskResults := [], waitRes := none } =
      (some (.openIn ['x']),
        [.openOut, .openErrOut, .openIn, .closeOut, .closeErrOut]) := by
  have h := (harness_open_fail_cleanup true true true
    { stdoutOpen := none, stderrOpen := none, stdinOpen := some ['x'],
      startRes := none, taskResults := [], waitRes := none }).2.2 ['x']
    (fun _ => rfl) (fun _ => rfl) rfl rfl
  simpa using h

/-! ## The pipe orchestrator (`Pipe`, `send`, `recv`, `pipe.readandwrite`,
`pipe.wait`, `pipe.run` in the core package) -/

/-- One completion signal arriving in the collect loop of
`pipe.readandwrite`: from the connecting-copy channel `errs`, from the
source's stderr-drain channel, or from the sink's stdout/stderr-drain
channel (which carries two signals per run). -/
inductive Sig where
  | copy (e : Option Str)
  | src (e : Option Str)
  | snk (e : Option Str)
deriving DecidableEq

/-- The raw error value a signal carries. -/
def sigVal : Sig → Option Str
  | .copy e => e
  | .src e => e
  | .snk e => e

/-- Message wrap `fmt.Errorf("error piping: %v", err)`. -/
def msgPiping (m : Str) : Str :=
  ['e', 'r', 'r', 'o', 'r', ' ', 'p', 'i', 'p', 'i', 'n', 'g', ':', ' '] ++ m

/-- Message wrap `fmt.Errorf("source error: %v", srcerr)`. -/
def msgSource (m : Str) : Str :=
  ['s', 'o', 'u', 'r', 'c', 'e', ' ', 'e', 'r', 'r', 'o', 'r', ':', ' '] ++ m

/-- Message wrap `fmt.Errorf("sink error: %v", snkerr)`. -/
def msgSink (m : Str) : Str :=
  ['s', 'i', 'n', 'k', ' ', 'e', 'r', 'r', 'o', 'r', ':', ' '] ++ m

/-- One iteration of the select loop in `pipe.readandwrite`: the
connecting-copy case assigns the received value to `err` unconditionally
(wrapping it when non-nil), while the drain cases overwrite `err` only
when the received value is non-nil. -/
def rwStep (err : Option Str) : Sig → Option Str
  | .copy v =>
    match v with
    | none => none
    | some m => some (msgPiping m)
  | .src v =>
    match v with
    | none => err
    | some m => some (msgSource m)
  | .snk v =>
    match v with
    | none => err
    | some m => some (msgSink m)

/-- Embedding of the collect loop of `pipe.readandwrite`: starting from a
nil `err`, process every completion signal in channel-arrival order (the
loop runs until all four signals have arrived) and return the final
`err`. -/
def readandwrite (sigs : List Sig) : Option Str :=
  sigs.foldl rwStep none

/-- Arrival order for the C1 counterexample: the source stderr-drain fails
first, then the connecting copy and the two sink drains complete
cleanly. -/
def c1sigs : List Sig :=
  [.src (some ['b', 'o', 'o', 'm']), .copy none, .snk none, .snk none]

/-- C1 (counterexample evaluation): with arrival order [source-drain error
"boom"; copy nil; sink nil; sink nil] the collect loop consumes all four
signals but returns nil, even though the first (and only) non-nil error
seen across the four signals was "boom": the nil result of the connecting
copy overwrites the recorded error, contradicting the claim and the
source's own comment "Return the first error found." -/
theorem readandwrite_loses_first_error :
    readandwrite c1sigs = none ∧
    (c1sigs.map sigVal).filterMap id = [['b', 'o', 'o', 'm']] :=
  ⟨rfl, rfl⟩

/-- Observable actions of the pipe orchestrator on the two executor
handles. -/
inductive PEvent where
  | launchSrc | launchSnk
  | openOutSrc | openErrSrc | closeOutSrc | startSrc
  | openOutSnk | openErrSnk | closeOutSnk | openInSnk | startSnk
  | killSrc | waitSrc | waitSnk
deriving DecidableEq

/-- Message wrap `fmt.Errorf("source exited with error: %v", err)`. -/
def msgSrcExit (m : Str) : Str :=
  ['s', 'o', 'u', 'r', 'c', 'e', ' ', 'e', 'x', 'i', 't', 'e', 'd', ' ',
   'w', 'i', 't', 'h', ' ', 'e', 'r', 'r', 'o', 'r', ':', ' '] ++ m

/-- Message wrap `fmt.Errorf("sink exited with error: %v", err)`. -/
def msgSnkExit (m : Str) : Str :=
  ['s', 'i', 'n', 'k', ' ', 'e', 'x', 'i', 't', 'e', 'd', ' ',
   'w', 'i', 't', 'h', ' ', 'e', 'r', 'r', 'o', 'r', ':', ' '] ++ m

/-- Embedding of `pipe.wait`: Wait is called on the source and sink
handles in two concurrent tasks; `snkFirst` is the (nondeterministic)
order in which their results arrive on `waitchan`.  The sink task kills
the source whenever its own Wait returned non-nil.  The result is
`joinerrs("; ", first, second)` in arrival order. -/
def pipeWait (srcW snkW : Option Str) (snkFirst : Bool) :
    Option Str × List PEvent :=
  let srcRes := match srcW with
    | none => none
    | some m => some (msgSrcExit m)
  let snkRes := match snkW with
    | none => none
    | some m => some (msgSnkExit m)
  let killTr : List PEvent := match snkW with
    | none => []
    | some _ => [.killSrc]
  if snkFirst then
    (joinerrs sepGo [snkRes, srcRes], [.waitSnk] ++ killTr ++ [.waitSrc])
  else
    (joinerrs sepGo [srcRes, snkRes], [.waitSrc, .waitSnk] ++ killTr)

/-- C7: in the termination phase Wait is invoked on both the source and
the sink handle under every arrival order (both orders of `snkFirst` are
legal schedules, no ordering is imposed between them), and Kill is invoked
on the source exactly when the sink's Wait returned a non-nil error. -/
theorem pipeWait_kills_src_on_snk_fail (srcW snkW : Option Str) (snkFirst : Bool) :
    PEvent.waitSrc ∈ (pipeWait srcW snkW snkFirst).2 ∧
    PEvent.waitSnk ∈ (pipeWait srcW snkW snkFirst).2 ∧
    (PEvent.killSrc ∈ (pipeWait srcW snkW snkFirst).2 ↔ snkW.isSome) := by
  cases snkW <;> cases snkFirst <;> simp [pipeWait]

/-- Environment of one `Pipe` invocation: the outcome each external setup
operation would have.  `srcKillRes` and `srcWaitRes` are the outcomes of
the cleanup Kill/Wait on the source during sink-setup failure; the source
discards both (`_ = src.exe.Kill()`, `_ = src.exe.Wait()`). -/
structure PEnv where
  srcLaunch : Option Str
  snkLaunch : Option Str
  srcOutOpen : Option Str
  srcErrOpen : Option Str
  srcStart : Option Str
  snkOutOpen : Option Str
  snkErrOpen : Option Str
  snkInOpen : Option Str
  snkStart : Option Str
  srcKillRes : Option Str
  srcWaitRes : Option Str
deriving DecidableEq

/-- Errors the setup portion of `Pipe` can return, one constructor per
production site (each is Errorf-wrapped in the source with the format
string of that site). -/
inductive PSetupErr where
  | launchSrc (e : Str) | launchSnk (e : Str)
  | srcOutOpen (e : Str) | srcErrOpen (e : Str) | srcStart (e : Str)
  | snkOutOpen (e : Str) | snkErrOpen (e : Str) | snkInOpen (e : Str)
  | snkStart (e : Str)
deriving DecidableEq

/-- Trace of a fully successful source setup: both launches, `send`'s
pipesout (stdout then stderr), then Start. -/
def pipeBase : List PEvent :=
  [.launchSrc, .launchSnk, .openOutSrc, .openErrSrc, .startSrc]

/-- Embedding of the setup portion of `Pipe` (launching both commands,
`send(srcexe)`, `recv(snkexe)`): returns `none` when setup succeeded and
`pipe{src, snk}.run()` is reached, otherwise the error `Pipe` puts in
`PipeResult.Err`.  On a `recv` failure after the source started, the
source is killed and then waited on, and the outcomes of that cleanup
(`srcKillRes`, `srcWaitRes`) are discarded. -/
def pipeSetup (env : PEnv) : Option PSetupErr × List PEvent :=
  match env.srcLaunch with
  | some e => (some (.launchSrc e), [.launchSrc])
  | none =>
  match env.snkLaunch with
  | some e => (some (.launchSnk e), [.launchSrc, .launchSnk])
  | none =>
  match env.srcOutOpen with
  | some e => (some (.srcOutOpen e), [.launchSrc, .launchSnk, .openOutSrc])
  | none =>
  match env.srcErrOpen with
  | some e => (some (.srcErrOpen e),
      [.launchSrc, .launchSnk, .openOutSrc, .openErrSrc, .closeOutSrc])
  | none =>
  match env.srcStart with
  | some e => (some (.srcStart e), pipeBase)
  | none =>
  match env.snkOutOpen with
  | some e => (some (.snkOutOpen e),
      pipeBase ++ [.openOutSnk, .killSrc, .waitSrc])
  | none =>
  match env.snkErrOpen with
  | some e => (some (.snkErrOpen e),
      pipeBase ++ [.openOutSnk, .openErrSnk, .closeOutSnk, .killSrc, .waitSrc])
  | none =>
  match env.snkInOpen with
  | some e => (some (.snkInOpen e),
      pipeBase ++ [.openOutSnk, .openErrSnk, .openInSnk, .killSrc, .waitSrc])
  | none =>
  match env.snkStart with
  | some e => (some (.snkStart e),
      pipeBase ++ [.openOutSnk, .openErrSnk, .openInSnk, .startSnk,
        .killSrc, .waitSrc])
  | none => (none, pipeBase ++ [.openOutSnk, .openErrSnk, .openInSnk, .startSnk])

/-- C6: whenever sink setup (opening its stdout/stderr/stdin endpoints or
its Start) fails after the source has started, `Pipe` kills and then waits
on the source handle (Kill before Wait in the trace) and returns exactly
the sink setup error; the outcomes of the cleanup Kill and Wait are
suppressed — the result does not depend on `srcKillRes`/`srcWaitRes`. -/
theorem pipe_sink_setup_fail (env : PEnv)
    (h1 : env.srcLaunch = none) (h2 : env.snkLaunch = none)
    (h3 : env.srcOutOpen = none) (h4 : env.srcErrOpen = none)
    (h5 : env.srcStart = none) :
    (∀ e, env.snkOutOpen = some e →
      pipeSetup env = (some (.snkOutOpen e),
        pipeBase ++ [.openOutSnk, .killSrc, .waitSrc])) ∧
    (∀ e, env.snkOutOpen = none → env.snkErrOpen = some e →
      pipeSetup env = (some (.snkErrOpen e),
        pipeBase ++ [.openOutSnk, .openErrSnk, .closeOutSnk, .killSrc, .waitSrc])) ∧
    (∀ e, env.snkOutOpen = none → env.snkErrOpen = none →
      env.snkInOpen = some e →
      pipeSetup env = (some (.snkInOpen e),
        pipeBase ++ [.openOutSnk, .openErrSnk, .openInSnk, .killSrc, .waitSrc])) ∧
    (∀ e, env.snkOutOpen = none → env.snkErrOpen = none →
      env.snkInOpen = none → env.snkStart = some e →
      pipeSetup env = (some (.snkStart e),
        pipeBase ++ [.openOutSnk, .openErrSnk, .openInSnk, .startSnk,
          .killSrc, .waitSrc])) ∧
    (∀ k w, pipeSetup { env with srcKillRes := k, srcWaitRes := w } =
      pipeSetup env) := by
  refine ⟨?_, ?_, ?_, ?_, ?_⟩
  · intro e hsnk
    simp [pipeSetup, h1, h2, h3, h4, h5, hsnk]
  · intro e ho hsnk
    simp [pipeSetup, h1, h2, h3, h4, h5, ho, hsnk]
  · intro e ho he hsnk
    simp [pipeSetup, h1, h2, h3, h4, h5, ho, he, hsnk]
  · intro e ho he hi hsnk
    simp [pipeSetup, h1, h2, h3, h4, h5, ho, he, hi, hsnk]
  · intro k w
    rfl

theorem pipe_sink_setup_fail_witness :
    pipeSetup
      { srcLaunch := none, snkLaunch := none, srcOutOpen := none,
        srcErrOpen := none, srcStart := none, snkOutOpen := none,
        snkErrOpen := none, snkInOpen := none, snkStart := some ['z'],
        srcKillRes := some ['k'], srcWaitRes := some ['w'] } =
      (some (.snkStart ['z']),
        pipeBase ++ [.openOutSnk, .openErrSnk, .openInSnk, .startSnk,
          .killSrc, .waitSrc]) :=
  (pipe_sink_setup_fail _ rfl rfl rfl rfl rfl).2.2.2.1 ['z'] rfl rfl rfl rfl

/-- Embedding of `PipeResult`. -/
structure PipeResult where
  SrcStderr : Str
  SnkStderr : Str
  SnkStdout : Str
  Err : Option Str
deriving DecidableEq

/-- Embedding of `pipe.run`: the aggregated error is
`joinerrs("; ", p.readandwrite(), p.wait())`, and the three buffers
drained during the collect phase are copied into the result. -/
def pipeRun (sigs : List Sig) (srcW snkW : Option Str) (snkFirst : Bool)
    (srcStderrBuf snkStderrBuf snkStdoutBuf : Str) : PipeResult :=
  { Err := joinerrs sepGo [readandwrite sigs, (pipeWait srcW snkW snkFirst).1],
    SrcStderr := srcStderrBuf,
    SnkStderr := snkStderrBuf,
    SnkStdout := snkStdoutBuf }

/-- Arrival order for the C2 counterexample: the sink stdout-drain fails
first, then the connecting copy, the source drain and the remaining sink
drain complete cleanly. -/
def c2sigs : List Sig :=
  [.snk (some ['i', 'o']), .copy none, .src none, .snk none]

/-- C2 (counterexample evaluation): a run in which one of the four I/O
tasks failed (the first sink drain reported "io") but the nil
connecting-copy signal arrived afterwards, and both Waits returned nil,
yields a `PipeResult` whose `Err` is nil — contradicting the claim that
`Err` is nil only if every one of the four I/O tasks completed without
error. -/
theorem pipeResult_nil_err_despite_fail :
    (pipeRun c2sigs none none false [] [] []).Err = none ∧
    (c2sigs.map sigVal).filterMap id = [['i', 'o']] :=
  ⟨rfl, rfl⟩

/-- Data flow of the connected pipeline in a clean run: the connecting
copy moves the source's whole stdout stream into the sink's stdin, the
sink's behaviour is a function from its stdin content to its stdout
content, and the sink stdout-drain stores that stream in the buffer that
`pipe.run` copies into `PipeResult.SnkStdout`. -/
def pipeRunConnected (srcOut : Str) (sinkOutFn : Str → Str)
    (srcStderrBuf snkStderrBuf : Str) (sigs : List Sig)
    (srcW snkW : Option Str) (snkFirst : Bool) : PipeResult :=
  pipeRun sigs srcW snkW snkFirst srcStderrBuf snkStderrBuf (sinkOutFn srcOut)

theorem readandwrite_all_none (sigs : List Sig)
    (h : ∀ s ∈ sigs, sigVal s = none) : readandwrite sigs = none := by
  induction sigs with
  | nil => rfl
  | cons s rest ih =>
    have hs := h s (by simp)
    have hrest : ∀ x ∈ rest, sigVal x = none := fun x hx => h x (by simp [hx])
    cases s <;> simp_all [readandwrite, rwStep, sigVal, List.foldl_cons]

/-- C8: piping a source that writes exactly the token `T` to its output
into a sink that copies its input to its output, with all four I/O tasks
completing cleanly (in any arrival order that is a permutation of the four
nil signals) and both commands exiting zero, yields a `PipeResult` whose
`SnkStdout` is `T` and whose `Err` is nil. -/
theorem pipe_token_passthrough (T : Str) (sigs : List Sig) (snkFirst : Bool)
    (hsig : sigs.Perm [Sig.copy none, Sig.src none, Sig.snk none, Sig.snk none]) :
    (pipeRunConnected T (fun s => s) [] [] sigs none none snkFirst).SnkStdout = T ∧
    (pipeRunConnected T (fun s => s) [] [] sigs none none snkFirst).Err = none := by
  have hall : ∀ s ∈ sigs, sigVal s = none := by
    intro s hs
    have hmem := hsig.subset hs
    simp only [List.mem_cons, List.mem_singleton] at hmem
    rcases hmem with rfl | rfl | rfl | rfl | h
    · rfl
    · rfl
    · rfl
    · rfl
    · simp at h
  have hrw : readandwrite sigs = none := readandwrite_all_none sigs hall
  constructor
  · rfl
  · cases snkFirst <;>
      simp [pipeRunConnected, pipeRun, hrw, pipeWait, joinerrs, sepGo]

theorem pipe_token_passthrough_witness :
    (pipeRunConnected ['t'] (fun s => s) [] []
      [Sig.copy none, Sig.src none, Sig.snk none, Sig.snk none]
      none none false).SnkStdout = ['t'] ∧
    (pipeRunConnected ['t'] (fun s => s) [] []
      [Sig.copy none, Sig.src none, Sig.snk none, Sig.snk none]
      none none false).Err = none :=
  pipe_token_passthrough ['t'] _ false (List.Perm.refl _)

end Piper
